import Mathlib

/-!
Verification development for the graff chart-rendering engine.

Shallow embedding of the data-transformation pipeline, config validation,
and chart-layout algorithms of the source (src/spec.rs, src/data/transform.rs,
src/cli.rs, src/chart/*.rs, src/render/mod.rs).  Cell values are modelled as a
closed tagged union; 32/64-bit numeric cells are collapsed to `Int`/`Nat`/`ℚ`
since the code treats them uniformly, and `f32`/`f64` arithmetic is modelled
exactly over `ℚ`.  Polars column sorts are modelled as deterministic stable
single-key sorts.
-/

namespace Graff

instance {ε α : Type} [DecidableEq ε] [DecidableEq α] : DecidableEq (Except ε α) := fun
  | .error a, .error b =>
    if h : a = b then .isTrue (by rw [h]) else .isFalse (by simp [h])
  | .error _, .ok _ => .isFalse (by simp)
  | .ok _, .error _ => .isFalse (by simp)
  | .ok a, .ok b =>
    if h : a = b then .isTrue (by rw [h]) else .isFalse (by simp [h])

/-- A typed cell value (polars `AnyValue`), restricted to the variants the
renderers distinguish: signed/unsigned integers, floats, strings, null. -/
inductive Value where
  | int (i : Int)
  | uint (n : Nat)
  | float (q : ℚ)
  | str (s : String)
  | null
deriving DecidableEq

/-- `extract_numeric_value` (duplicated in each of src/chart/funnel.rs,
retention.rs, bar.rs, bar_stacked.rs, scatter.rs lines at end of file):
Int32/Int64/UInt32/UInt64/Float32/Float64 map to their numeric value, all
other variants to `none`. -/
def extract_numeric_value : Value → Option ℚ
  | .int i => some (i : ℚ)
  | .uint n => some (n : ℚ)
  | .float q => some q
  | .str _ => none
  | .null => none

/-- Rust `format!("{:?}", any_value)` used to key categories, groups and
cohorts: integers and floats print their number, Utf8 values print quoted. -/
def fmtValue : Value → String
  | .int i => toString i
  | .uint n => toString n
  | .float q => toString q
  | .str s => "\"" ++ s ++ "\""
  | .null => "null"

/-- A data-frame row: association list from column name to cell value. -/
abbrev Row := List (String × Value)

/-- Cell of `r` at column `c` (columns referenced by the claims exist). -/
def rowGet (r : Row) (c : String) : Value := (r.lookup c).getD .null

/-- Stable insertion of `x` before the first element `y` with `le x y`. -/
def insertLe (le : α → α → Bool) (x : α) : List α → List α
  | [] => [x]
  | y :: ys => if le x y then x :: y :: ys else y :: insertLe le x ys

/-- Stable sort by a boolean "may come before" comparator (model of a stable
single-key column sort). -/
def sortByLe (le : α → α → Bool) (l : List α) : List α :=
  l.foldr (insertLe le) []

/-- Total comparison on cell values used by a column sort: numerics by value,
strings lexicographically, nulls first, numerics before strings. -/
def valueLe (a b : Value) : Bool :=
  match a, b with
  | .null, _ => true
  | _, .null => false
  | .str s, .str t => decide (s ≤ t)
  | .str _, _ => false
  | _, .str _ => true
  | a, b =>
    match extract_numeric_value a, extract_numeric_value b with
    | some x, some y => decide (x ≤ y)
    | _, _ => true

/-- `SortConfig` (src/spec.rs lines 71-75): column plus optional ascending. -/
structure SortConfig where
  column : String
  ascending : Option Bool
deriving DecidableEq

/-- One polars `lf.sort(&config.column, options)` call with
`descending = !ascending` (src/data/transform.rs lines 120-126 and
src/cli.rs lines 1259-1266). -/
def sortByConfig (cfg : SortConfig) (rows : List Row) : List Row :=
  let asc := cfg.ascending.getD true
  sortByLe
    (fun a b =>
      if asc then valueLe (rowGet a cfg.column) (rowGet b cfg.column)
      else valueLe (rowGet b cfg.column) (rowGet a cfg.column))
    rows

/-- `apply_sorting` (src/data/transform.rs lines 116-130) and the sort loop of
`apply_chart_transformations` (src/cli.rs lines 1257-1267): each configured
sort entry triggers a full re-sort of the frame by that single column. -/
def apply_sorting (sort_configs : List SortConfig) (rows : List Row) : List Row :=
  sort_configs.foldl (fun acc cfg => sortByConfig cfg acc) rows

/-- Modelled from the spec (§4.2 rule 4): the claimed standard stable
lexicographic multi-key sort, first listed entry the primary key, each
subsequent entry breaking ties inside earlier groups. -/
def specMultiKeyLe (sort_configs : List SortConfig) (a b : Row) : Bool :=
  match sort_configs with
  | [] => true
  | cfg :: rest =>
    let va := rowGet a cfg.column
    let vb := rowGet b cfg.column
    if va = vb then specMultiKeyLe rest a b
    else if cfg.ascending.getD true then valueLe va vb else valueLe vb va

/-- Modelled from the spec (§4.2 rule 4): sort once by the multi-key order. -/
def specMultiKeySort (sort_configs : List SortConfig) (rows : List Row) : List Row :=
  sortByLe (specMultiKeyLe sort_configs) rows

/-- C1: the transform pipeline's sort step is claimed to be a standard stable
lexicographic multi-key sort with the first listed entry primary.  Evaluating
the code's sort loop on the frame [{x=2,y=1},{x=1,y=2}] with sort entries
[(x,asc),(y,asc)] yields the rows ordered by y (the LAST entry) as primary
key, not the lexicographic (x primary) order the claim demands. -/
theorem apply_sorting_last_key_wins :
    apply_sorting [⟨"x", some true⟩, ⟨"y", some true⟩]
        [[("x", Value.int 2), ("y", Value.int 1)], [("x", Value.int 1), ("y", Value.int 2)]]
      = [[("x", Value.int 2), ("y", Value.int 1)], [("x", Value.int 1), ("y", Value.int 2)]]
    ∧ specMultiKeySort [⟨"x", some true⟩, ⟨"y", some true⟩]
        [[("x", Value.int 2), ("y", Value.int 1)], [("x", Value.int 1), ("y", Value.int 2)]]
      = [[("x", Value.int 1), ("y", Value.int 2)], [("x", Value.int 2), ("y", Value.int 1)]]
    ∧ ([[("x", Value.int 2), ("y", Value.int 1)], [("x", Value.int 1), ("y", Value.int 2)]] : List Row)
      ≠ [[("x", Value.int 1), ("y", Value.int 2)], [("x", Value.int 2), ("y", Value.int 1)]] :=
  ⟨by decide, by decide, by decide⟩

/-! ## Filters (src/cli.rs `apply_filter_config`, src/data/transform.rs `apply_filters`) -/

/-- `FilterValue` (src/spec.rs lines 64-69). -/
inductive FilterValue where
  | single (v : String)
  | multiple (vs : List String)
deriving DecidableEq

/-- The value set of a filter entry. -/
def FilterValue.valuesOf : FilterValue → List String
  | .single v => [v]
  | .multiple vs => vs

/-- `FilterConfig` (src/spec.rs lines 57-62).  The optional include/exclude
hash maps are modelled as association lists (`None` and an empty map are
behaviourally identical everywhere in the source). -/
structure FilterConfig where
  includes : List (String × FilterValue)
  excludes : List (String × FilterValue)
  expression : Option String
deriving DecidableEq

/-- The include filter expression for one entry (src/cli.rs lines 1286-1295):
a Single value compares for equality; a Multiple set builds the OR chain
starting from `values[0]` (`none` models the index panic on an empty set). -/
def includeExpr (column : String) : FilterValue → Option (Row → Bool)
  | .single v => some (fun r => rowGet r column == Value.str v)
  | .multiple [] => none
  | .multiple (v :: vs) =>
    some (fun r =>
      vs.foldl (fun e w => e || (rowGet r column == Value.str w))
        (rowGet r column == Value.str v))

/-- The exclude filter expression for one entry (src/cli.rs lines 1303-1312):
a Single value compares for inequality; a Multiple set builds the AND chain
of inequalities starting from `values[0]`. -/
def excludeExpr (column : String) : FilterValue → Option (Row → Bool)
  | .single v => some (fun r => rowGet r column != Value.str v)
  | .multiple [] => none
  | .multiple (v :: vs) =>
    some (fun r =>
      vs.foldl (fun e w => e && (rowGet r column != Value.str w))
        (rowGet r column != Value.str v))

/-- The include loop of `apply_filter_config` (src/cli.rs lines 1284-1298):
each entry applies one more `lf.filter(...)` on the accumulated frame. -/
def applyIncludes : List (String × FilterValue) → List Row → Option (List Row)
  | [], rows => some rows
  | e :: rest, rows =>
    match includeExpr e.1 e.2 with
    | none => none
    | some p => applyIncludes rest (rows.filter p)

/-- The exclude loop of `apply_filter_config` (src/cli.rs lines 1301-1315). -/
def applyExcludes : List (String × FilterValue) → List Row → Option (List Row)
  | [], rows => some rows
  | e :: rest, rows =>
    match excludeExpr e.1 e.2 with
    | none => none
    | some p => applyExcludes rest (rows.filter p)

/-- `apply_filter_config` (src/cli.rs lines 1277-1318): include loop then
exclude loop; `apply_filters` (src/data/transform.rs lines 50-98) is the same
plus a no-op log for the unevaluated free-text expression. -/
def apply_filter_config (filter : FilterConfig) (rows : List Row) : Option (List Row) :=
  match applyIncludes filter.includes rows with
  | none => none
  | some rows1 => applyExcludes filter.excludes rows1

/-- Modelled from the spec (§4.2 rule 1): row survives iff for every include
entry the cell equals SOME value of the set, and for every exclude entry the
cell differs from EVERY value of the set; entries compose by AND. -/
def specFilterKeep (filter : FilterConfig) (r : Row) : Bool :=
  filter.includes.all (fun e => e.2.valuesOf.any (fun v => rowGet r e.1 == Value.str v))
    && filter.excludes.all (fun e => e.2.valuesOf.all (fun v => rowGet r e.1 != Value.str v))

theorem foldl_or_eq (f : α → Bool) :
    ∀ (l : List α) (b : Bool), l.foldl (fun e w => e || f w) b = (b || l.any f) := by
  intro l
  induction l with
  | nil => simp
  | cons x xs ih => intro b; simp [List.any_cons, ih, Bool.or_assoc]

theorem foldl_and_eq (f : α → Bool) :
    ∀ (l : List α) (b : Bool), l.foldl (fun e w => e && f w) b = (b && l.all f) := by
  intro l
  induction l with
  | nil => simp
  | cons x xs ih => intro b; simp [List.all_cons, ih, Bool.and_assoc]

theorem includeExpr_spec (c : String) (fv : FilterValue) (p : Row → Bool)
    (h : includeExpr c fv = some p) (r : Row) :
    p r = fv.valuesOf.any (fun v => rowGet r c == Value.str v) := by
  cases fv with
  | single v => simp [includeExpr] at h; subst h; simp [FilterValue.valuesOf]
  | multiple vs =>
    cases vs with
    | nil => simp [includeExpr] at h
    | cons v vs =>
      simp [includeExpr] at h; subst h
      simp [FilterValue.valuesOf, foldl_or_eq, List.any_cons]

theorem excludeExpr_spec (c : String) (fv : FilterValue) (p : Row → Bool)
    (h : excludeExpr c fv = some p) (r : Row) :
    p r = fv.valuesOf.all (fun v => rowGet r c != Value.str v) := by
  cases fv with
  | single v => simp [excludeExpr] at h; subst h; simp [FilterValue.valuesOf]
  | multiple vs =>
    cases vs with
    | nil => simp [excludeExpr] at h
    | cons v vs =>
      simp [excludeExpr] at h; subst h
      simp [FilterValue.valuesOf, foldl_and_eq, List.all_cons]

theorem applyIncludes_eq_filter (entries : List (String × FilterValue))
    (h : ∀ e ∈ entries, e.2.valuesOf ≠ []) (rows : List Row) :
    applyIncludes entries rows
      = some (rows.filter (fun r =>
          entries.all (fun e => e.2.valuesOf.any (fun v => rowGet r e.1 == Value.str v)))) := by
  induction entries generalizing rows with
  | nil => simp [applyIncludes]
  | cons e rest ih =>
    have hne : e.2.valuesOf ≠ [] := h e (List.mem_cons_self e rest)
    obtain ⟨p, hp⟩ : ∃ p, includeExpr e.1 e.2 = some p := by
      cases hfv : e.2 with
      | single v => exact ⟨_, rfl⟩
      | multiple vs =>
        cases vs with
        | nil => rw [hfv] at hne; simp [FilterValue.valuesOf] at hne
        | cons v vs => exact ⟨_, rfl⟩
    rw [applyIncludes, hp]
    dsimp only
    rw [ih (fun e he => h e (List.mem_cons_of_mem _ he)) (rows.filter p),
      List.filter_filter]
    congr 1
    apply List.filter_congr
    intro r _
    rw [includeExpr_spec e.1 e.2 p hp r]
    simp [List.all_cons, Bool.and_comm]

theorem applyExcludes_eq_filter (entries : List (String × FilterValue))
    (h : ∀ e ∈ entries, e.2.valuesOf ≠ []) (rows : List Row) :
    applyExcludes entries rows
      = some (rows.filter (fun r =>
          entries.all (fun e => e.2.valuesOf.all (fun v => rowGet r e.1 != Value.str v)))) := by
  induction entries generalizing rows with
  | nil => simp [applyExcludes]
  | cons e rest ih =>
    have hne : e.2.valuesOf ≠ [] := h e (List.mem_cons_self e rest)
    obtain ⟨p, hp⟩ : ∃ p, excludeExpr e.1 e.2 = some p := by
      cases hfv : e.2 with
      | single v => exact ⟨_, rfl⟩
      | multiple vs =>
        cases vs with
        | nil => rw [hfv] at hne; simp [FilterValue.valuesOf] at hne
        | cons v vs => exact ⟨_, rfl⟩
    rw [applyExcludes, hp]
    dsimp only
    rw [ih (fun e he => h e (List.mem_cons_of_mem _ he)) (rows.filter p),
      List.filter_filter]
    congr 1
    apply List.filter_congr
    intro r _
    rw [excludeExpr_spec e.1 e.2 p hp r]
    simp [List.all_cons, Bool.and_comm]

/-- C4: for every frame and filter configuration (with the nonempty value
sets that upstream config validation guarantees), the filter step keeps
exactly the rows satisfying: every include entry matches SOME value of its
set (OR / union), every exclude entry differs from EVERY value of its set
(AND), and entries on different columns compose by AND. -/
theorem apply_filter_config_spec (filter : FilterConfig) (rows : List Row)
    (hinc : ∀ e ∈ filter.includes, e.2.valuesOf ≠ [])
    (hexc : ∀ e ∈ filter.excludes, e.2.valuesOf ≠ []) :
    apply_filter_config filter rows = some (rows.filter (specFilterKeep filter)) := by
  rw [apply_filter_config, applyIncludes_eq_filter filter.includes hinc rows]
  dsimp only
  rw [applyExcludes_eq_filter filter.excludes hexc, List.filter_filter]
  congr 1
  apply List.filter_congr
  intro r _
  simp [specFilterKeep, Bool.and_comm]

/-- Witness for C4: include {A,B} on `ch` and exclude {C} on `x` applied to a
four-row frame keep exactly the two rows with ch ∈ {A,B} and x ≠ C. -/
theorem apply_filter_config_spec_witness :
    (∀ e ∈ ([("ch", FilterValue.multiple ["A", "B"])] : List (String × FilterValue)),
        e.2.valuesOf ≠ [])
    ∧ apply_filter_config
        ⟨[("ch", FilterValue.multiple ["A", "B"])], [("x", FilterValue.single "C")], none⟩
        [[("ch", Value.str "A"), ("x", Value.str "C")],
         [("ch", Value.str "A"), ("x", Value.str "D")],
         [("ch", Value.str "Z"), ("x", Value.str "D")],
         [("ch", Value.str "B"), ("x", Value.str "E")]]
      = some [[("ch", Value.str "A"), ("x", Value.str "D")],
              [("ch", Value.str "B"), ("x", Value.str "E")]] := by
  constructor
  · decide
  · rw [apply_filter_config_spec _ _ (by decide) (by decide)]
    decide

/-! ## Config validation (src/spec.rs `ChartConfig::validate`) -/

/-- `ChartType` (src/spec.rs lines 77-88). -/
inductive ChartType where
  | line
  | area
  | bar
  | barStacked
  | heatmap
  | scatter
  | funnel
  | retention
deriving DecidableEq

/-- Rust `Debug` formatting of `ChartType`, used in the x/y error messages. -/
def chartTypeName : ChartType → String
  | .line => "Line"
  | .area => "Area"
  | .bar => "Bar"
  | .barStacked => "BarStacked"
  | .heatmap => "Heatmap"
  | .scatter => "Scatter"
  | .funnel => "Funnel"
  | .retention => "Retention"

/-- `ChartConfig` (src/spec.rs lines 18-55), restricted to the fields read by
`validate` and the renderers under verification. -/
structure ChartConfig where
  chart_type : ChartType
  x : Option String
  y : Option String
  z : Option String
  steps : Option (List String)
  values : Option String
  cohort_date : Option String
  period_number : Option String
  users : Option String
  width : Option Nat
  height : Option Nat
  scale : Option ℚ
  bins : Option Nat
  filter : Option FilterConfig
deriving DecidableEq

/-- Required-field rules of `validate` (src/spec.rs lines 172-207), in source
order: heatmap needs z; funnel needs steps then values; retention needs
cohort_date, period_number, users; every other type needs x then y. -/
def requiredFieldsCheck (c : ChartConfig) : Except String Unit :=
  match c.chart_type with
  | .heatmap =>
    if c.z.isNone then
      .error "Heatmap charts require a \x27z\x27 field for color intensity values"
    else .ok ()
  | .funnel =>
    if c.steps.isNone then
      .error "Funnel charts require a \x27steps\x27 field with step names"
    else if c.values.isNone then
      .error "Funnel charts require a \x27values\x27 field for step values"
    else .ok ()
  | .retention =>
    if c.cohort_date.isNone then
      .error "Retention charts require a \x27cohort_date\x27 field"
    else if c.period_number.isNone then
      .error "Retention charts require a \x27period_number\x27 field"
    else if c.users.isNone then
      .error "Retention charts require a \x27users\x27 field"
    else .ok ()
  | t =>
    if c.x.isNone then
      .error (chartTypeName t ++ " charts require an \x27x\x27 field")
    else if c.y.isNone then
      .error (chartTypeName t ++ " charts require a \x27y\x27 field")
    else .ok ()

/-- Width bound of `validate` (src/spec.rs lines 210-217). -/
def widthCheck (c : ChartConfig) : Except String Unit :=
  match c.width with
  | none => .ok ()
  | some w =>
    if 100 ≤ w ∧ w ≤ 10000 then .ok ()
    else .error ("Chart width must be between 100 and 10000 pixels, got " ++ toString w)

/-- Height bound of `validate` (src/spec.rs lines 219-226). -/
def heightCheck (c : ChartConfig) : Except String Unit :=
  match c.height with
  | none => .ok ()
  | some h =>
    if 100 ≤ h ∧ h ≤ 10000 then .ok ()
    else .error ("Chart height must be between 100 and 10000 pixels, got " ++ toString h)

/-- Scale bound of `validate` (src/spec.rs lines 229-233): bails when
`scale <= 0.0 || scale > 10.0`, with a message stating the range 0.1-10.0. -/
def scaleCheck (c : ChartConfig) : Except String Unit :=
  match c.scale with
  | none => .ok ()
  | some s =>
    if s ≤ 0 ∨ 10 < s then
      .error ("Chart scale must be between 0.1 and 10.0, got " ++ toString s)
    else .ok ()

/-- Bins bound of `validate` (src/spec.rs lines 236-240). -/
def binsCheck (c : ChartConfig) : Except String Unit :=
  match c.bins with
  | none => .ok ()
  | some b =>
    if 2 ≤ b ∧ b ≤ 100 then .ok ()
    else .error ("Heatmap bins must be between 2 and 100, got " ++ toString b)

/-- One include/exclude entry of `validate_filter` (src/spec.rs lines
263-323): nonempty column name, then nonempty value(s). -/
def filterEntryCheck (column : String) (fv : FilterValue) : Except String Unit :=
  if column = "" then .error "Filter column name cannot be empty"
  else
    match fv with
    | .single v =>
      if v = "" then
        .error ("Filter value cannot be empty for column \x27" ++ column ++ "\x27")
      else .ok ()
    | .multiple vs =>
      if vs.isEmpty then
        .error ("Filter values list cannot be empty for column \x27" ++ column ++ "\x27")
      else if vs.any (fun v => v = "") then
        .error ("Filter value cannot be empty for column \x27" ++ column ++ "\x27")
      else .ok ()

/-- The entry loop of `validate_filter`, first failure wins. -/
def filterEntriesCheck : List (String × FilterValue) → Except String Unit
  | [] => .ok ()
  | e :: rest =>
    match filterEntryCheck e.1 e.2 with
    | .error msg => .error msg
    | .ok _ => filterEntriesCheck rest

/-- `validate_filter` (src/spec.rs lines 250-332). -/
def validate_filter (f : FilterConfig) : Except String Unit :=
  let has_include := !f.includes.isEmpty
  let has_exclude := !f.excludes.isEmpty
  let has_expression := f.expression.isSome
  if !has_include && !has_exclude && !has_expression then
    .error "Filter configuration must have at least one condition (include, exclude, or expression)"
  else
    match filterEntriesCheck f.includes with
    | .error msg => .error msg
    | .ok _ =>
      match filterEntriesCheck f.excludes with
      | .error msg => .error msg
      | .ok _ =>
        match f.expression with
        | some e => if e.trim = "" then .error "Filter expression cannot be empty" else .ok ()
        | none => .ok ()

/-- Filter step of `validate` (src/spec.rs lines 243-245). -/
def filterCheck (c : ChartConfig) : Except String Unit :=
  match c.filter with
  | some f => validate_filter f
  | none => .ok ()

/-- `ChartConfig::validate` (src/spec.rs lines 171-248): required fields,
then width, height, scale, bins, filter; first failure wins. -/
def ChartConfig.validate (c : ChartConfig) : Except String Unit :=
  match requiredFieldsCheck c with
  | .error e => .error e
  | .ok _ =>
    match widthCheck c with
    | .error e => .error e
    | .ok _ =>
      match heightCheck c with
      | .error e => .error e
      | .ok _ =>
        match scaleCheck c with
        | .error e => .error e
        | .ok _ =>
          match binsCheck c with
          | .error e => .error e
          | .ok _ => filterCheck c

theorem validate_eq_of_required_error (c : ChartConfig) (msg : String)
    (h : requiredFieldsCheck c = .error msg) : c.validate = .error msg := by
  rw [ChartConfig.validate, h]

/-- C8: `validate` evaluates the required-field rules first: any config of
type heatmap lacking z, funnel lacking steps or values, retention lacking
cohort_date / period_number / users, or any other type lacking x or y gets
the corresponding required-field error, whatever the values of the numeric
fields and the filter (they are not examined). -/
theorem validate_required_fields_first (c : ChartConfig) :
    (c.chart_type = .heatmap → c.z = none →
      c.validate = .error "Heatmap charts require a \x27z\x27 field for color intensity values")
    ∧ (c.chart_type = .funnel → c.steps = none →
      c.validate = .error "Funnel charts require a \x27steps\x27 field with step names")
    ∧ (c.chart_type = .funnel → c.steps.isSome → c.values = none →
      c.validate = .error "Funnel charts require a \x27values\x27 field for step values")
    ∧ (c.chart_type = .retention → c.cohort_date = none →
      c.validate = .error "Retention charts require a \x27cohort_date\x27 field")
    ∧ (c.chart_type = .retention → c.cohort_date.isSome → c.period_number = none →
      c.validate = .error "Retention charts require a \x27period_number\x27 field")
    ∧ (c.chart_type = .retention → c.cohort_date.isSome → c.period_number.isSome →
      c.users = none → c.validate = .error "Retention charts require a \x27users\x27 field")
    ∧ (c.chart_type ≠ .heatmap → c.chart_type ≠ .funnel → c.chart_type ≠ .retention →
      c.x = none →
      c.validate = .error (chartTypeName c.chart_type ++ " charts require an \x27x\x27 field"))
    ∧ (c.chart_type ≠ .heatmap → c.chart_type ≠ .funnel → c.chart_type ≠ .retention →
      c.x.isSome → c.y = none →
      c.validate = .error (chartTypeName c.chart_type ++ " charts require a \x27y\x27 field")) := by
  refine ⟨?_, ?_, ?_, ?_, ?_, ?_, ?_, ?_⟩ <;> intro ht
  · intro hz
    exact validate_eq_of_required_error c _ (by simp [requiredFieldsCheck, ht, hz])
  · intro hs
    exact validate_eq_of_required_error c _ (by simp [requiredFieldsCheck, ht, hs])
  · intro hs hv
    exact validate_eq_of_required_error c _
      (by simp [requiredFieldsCheck, ht, hv, Option.isNone_iff_eq_none,
        Option.isSome_iff_ne_none.mp hs])
  · intro hc
    exact validate_eq_of_required_error c _ (by simp [requiredFieldsCheck, ht, hc])
  · intro hc hp
    exact validate_eq_of_required_error c _
      (by simp [requiredFieldsCheck, ht, hp, Option.isNone_iff_eq_none,
        Option.isSome_iff_ne_none.mp hc])
  · intro hc hp hu
    exact validate_eq_of_required_error c _
      (by simp [requiredFieldsCheck, ht, hu, Option.isNone_iff_eq_none,
        Option.isSome_iff_ne_none.mp hc, Option.isSome_iff_ne_none.mp hp])
  · intro hf hr hx
    refine validate_eq_of_required_error c _ ?_
    cases hct : c.chart_type <;>
      simp_all [requiredFieldsCheck, chartTypeName]
  · intro hf hr hx hy
    refine validate_eq_of_required_error c _ ?_
    cases hct : c.chart_type <;>
      simp_all [requiredFieldsCheck, chartTypeName, Option.isNone_iff_eq_none,
        Option.isSome_iff_ne_none]

/-- Witness for C8: a heatmap config lacking z, even with an out-of-range
width of 5 and an empty filter, reports the missing z field. -/
theorem validate_required_fields_first_witness :
    ChartConfig.validate
        ⟨.heatmap, some "hour", some "day", none, none, none, none, none, none,
          some 5, none, some 50, some 1000, some ⟨[], [], none⟩⟩
      = .error "Heatmap charts require a \x27z\x27 field for color intensity values" :=
  (validate_required_fields_first _).1 rfl rfl

/-- The width bound as a predicate on the config. -/
abbrev widthOk (c : ChartConfig) : Prop :=
  match c.width with
  | none => True
  | some w => 100 ≤ w ∧ w ≤ 10000

/-- The height bound as a predicate on the config. -/
abbrev heightOk (c : ChartConfig) : Prop :=
  match c.height with
  | none => True
  | some h => 100 ≤ h ∧ h ≤ 10000

/-- The scale bound actually enforced: scale ∈ (0, 10]. -/
abbrev scaleOk (c : ChartConfig) : Prop :=
  match c.scale with
  | none => True
  | some s => 0 < s ∧ s ≤ 10

/-- The bins bound as a predicate on the config. -/
abbrev binsOk (c : ChartConfig) : Prop :=
  match c.bins with
  | none => True
  | some b => 2 ≤ b ∧ b ≤ 100

/-- The filter rule as a predicate on the config. -/
abbrev filterOk (c : ChartConfig) : Prop :=
  match c.filter with
  | none => True
  | some f => validate_filter f = .ok ()

theorem widthCheck_ok (c : ChartConfig) : widthCheck c = .ok () ↔ widthOk c := by
  cases h : c.width <;> simp [widthCheck, widthOk, h]

theorem heightCheck_ok (c : ChartConfig) : heightCheck c = .ok () ↔ heightOk c := by
  cases h : c.height <;> simp [heightCheck, heightOk, h]

theorem scaleCheck_ok (c : ChartConfig) : scaleCheck c = .ok () ↔ scaleOk c := by
  cases h : c.scale with
  | none => simp [scaleCheck, scaleOk, h]
  | some s =>
    simp only [scaleCheck, scaleOk, h]
    split
    · rename_i hcond
      constructor
      · intro habs; simp at habs
      · rintro ⟨h1, h2⟩
        rcases hcond with h3 | h3
        · exact absurd h1 (not_lt.mpr h3)
        · exact absurd h3 (not_lt.mpr h2)
    · rename_i hcond
      push_neg at hcond
      simp [hcond.1, hcond.2]

theorem binsCheck_ok (c : ChartConfig) : binsCheck c = .ok () ↔ binsOk c := by
  cases h : c.bins <;> simp [binsCheck, binsOk, h]

theorem filterCheck_ok (c : ChartConfig) : filterCheck c = .ok () ↔ filterOk c := by
  cases h : c.filter <;> simp [filterCheck, filterOk, h]

/-- C9 (amended): `validate` enforces width and height in [100, 10000]
inclusively, scale in (0, 10.0], bins in [2, 100]; each violation error names
the offending field and the out-of-range value; the width/height/bins errors
name the allowed range, while the scale error names the range 0.1-10.0 even
though any scale in (0, 0.1) is accepted. -/
theorem validate_numeric_bounds (c : ChartConfig)
    (hreq : requiredFieldsCheck c = .ok ()) :
    (∀ w, c.width = some w → ¬(100 ≤ w ∧ w ≤ 10000) →
      c.validate = .error ("Chart width must be between 100 and 10000 pixels, got " ++ toString w))
    ∧ (∀ h, widthOk c → c.height = some h → ¬(100 ≤ h ∧ h ≤ 10000) →
      c.validate = .error ("Chart height must be between 100 and 10000 pixels, got " ++ toString h))
    ∧ (∀ s, widthOk c → heightOk c → c.scale = some s → (s ≤ 0 ∨ 10 < s) →
      c.validate = .error ("Chart scale must be between 0.1 and 10.0, got " ++ toString s))
    ∧ (∀ b, widthOk c → heightOk c → scaleOk c → c.bins = some b → ¬(2 ≤ b ∧ b ≤ 100) →
      c.validate = .error ("Heatmap bins must be between 2 and 100, got " ++ toString b))
    ∧ (c.validate = .ok () ↔ widthOk c ∧ heightOk c ∧ scaleOk c ∧ binsOk c ∧ filterOk c) := by
  refine ⟨?_, ?_, ?_, ?_, ?_⟩
  · intro w hw hout
    rw [ChartConfig.validate, hreq]
    have : widthCheck c = .error ("Chart width must be between 100 and 10000 pixels, got " ++ toString w) := by
      simp [widthCheck, hw, hout]
    rw [this]
  · intro h hwid hh hout
    rw [ChartConfig.validate, hreq, (widthCheck_ok c).mpr hwid]
    have : heightCheck c = .error ("Chart height must be between 100 and 10000 pixels, got " ++ toString h) := by
      simp [heightCheck, hh, hout]
    rw [this]
  · intro s hwid hhei hs hout
    rw [ChartConfig.validate, hreq, (widthCheck_ok c).mpr hwid, (heightCheck_ok c).mpr hhei]
    have : scaleCheck c = .error ("Chart scale must be between 0.1 and 10.0, got " ++ toString s) := by
      simp [scaleCheck, hs, hout]
    rw [this]
  · intro b hwid hhei hsca hb hout
    rw [ChartConfig.validate, hreq, (widthCheck_ok c).mpr hwid, (heightCheck_ok c).mpr hhei,
      (scaleCheck_ok c).mpr hsca]
    have : binsCheck c = .error ("Heatmap bins must be between 2 and 100, got " ++ toString b) := by
      simp [binsCheck, hb, hout]
    rw [this]
  · rw [ChartConfig.validate, hreq]
    constructor
    · intro hok
      cases hw : widthCheck c with
      | error e => rw [hw] at hok; simp at hok
      | ok u =>
        cases u
        rw [hw] at hok; dsimp only at hok
        cases hh : heightCheck c with
        | error e => rw [hh] at hok; simp at hok
        | ok u =>
          cases u
          rw [hh] at hok; dsimp only at hok
          cases hs : scaleCheck c with
          | error e => rw [hs] at hok; simp at hok
          | ok u =>
            cases u
            rw [hs] at hok; dsimp only at hok
            cases hb : binsCheck c with
            | error e => rw [hb] at hok; simp at hok
            | ok u =>
              cases u
              rw [hb] at hok; dsimp only at hok
              exact ⟨(widthCheck_ok c).mp hw, (heightCheck_ok c).mp hh,
                (scaleCheck_ok c).mp hs, (binsCheck_ok c).mp hb,
                (filterCheck_ok c).mp hok⟩
    · rintro ⟨hwid, hhei, hsca, hbin, hfil⟩
      rw [(widthCheck_ok c).mpr hwid, (heightCheck_ok c).mpr hhei,
        (scaleCheck_ok c).mpr hsca, (binsCheck_ok c).mpr hbin]
      exact (filterCheck_ok c).mpr hfil

/-- A minimal valid line config used as the base of concrete instances. -/
def lineBase : ChartConfig :=
  { chart_type := .line, x := some "date", y := some "users", z := none,
    steps := none, values := none, cohort_date := none, period_number := none,
    users := none, width := none, height := none, scale := none, bins := none,
    filter := none }

/-- Witness for C9: width 99 and 10001 are rejected with the field, value and
range in the message; width 100 and 10000 are accepted. -/
theorem validate_numeric_bounds_witness :
    ChartConfig.validate { lineBase with width := some 99 }
      = .error ("Chart width must be between 100 and 10000 pixels, got " ++ toString 99)
    ∧ ChartConfig.validate { lineBase with width := some 100 } = .ok ()
    ∧ ChartConfig.validate { lineBase with width := some 10000 } = .ok ()
    ∧ ChartConfig.validate { lineBase with width := some 10001 }
      = .error ("Chart width must be between 100 and 10000 pixels, got " ++ toString 10001) := by
  refine ⟨?_, ?_, ?_, ?_⟩
  · exact (validate_numeric_bounds _ (by decide)).1 99 rfl (by decide)
  · exact (validate_numeric_bounds _ (by decide)).2.2.2.2.mpr
      ⟨⟨by norm_num, by norm_num⟩, trivial, trivial, trivial, trivial⟩
  · exact (validate_numeric_bounds _ (by decide)).2.2.2.2.mpr
      ⟨⟨by norm_num, by norm_num⟩, trivial, trivial, trivial, trivial⟩
  · exact (validate_numeric_bounds _ (by decide)).1 10001 rfl (by decide)

/-- Counterexample for C9 as stated: the enforced scale range is (0, 10.0]
(scale 1/20 = 0.05 passes validation), yet the scale violation message names
the range 0.1-10.0, so the error does not name the allowed range. -/
theorem validate_scale_message_names_wrong_range :
    ChartConfig.validate { lineBase with scale := some ((1 : ℚ)/20) } = .ok ()
    ∧ ChartConfig.validate { lineBase with scale := some 15 }
      = .error "Chart scale must be between 0.1 and 10.0, got 15"
    ∧ (1 : ℚ)/20 < 1/10 := by
  refine ⟨?_, ?_, by norm_num⟩
  · norm_num [ChartConfig.validate, requiredFieldsCheck, widthCheck, heightCheck,
      scaleCheck, binsCheck, filterCheck, lineBase]
  · norm_num [ChartConfig.validate, requiredFieldsCheck, widthCheck, heightCheck,
      scaleCheck, binsCheck, filterCheck, lineBase]
    rfl

theorem filterEntriesCheck_ok_no_empty {entries : List (String × FilterValue)}
    (h : filterEntriesCheck entries = .ok ()) :
    ∀ e ∈ entries, e.2.valuesOf ≠ [] := by
  induction entries with
  | nil => simp
  | cons e rest ih =>
    intro e' he'
    rw [filterEntriesCheck] at h
    cases hc : filterEntryCheck e.1 e.2 with
    | error m => rw [hc] at h; simp at h
    | ok u =>
      cases u
      rw [hc] at h; dsimp only at h
      rcases List.mem_cons.mp he' with rfl | hmem
      · cases hfv : e'.2 with
        | single v => simp [FilterValue.valuesOf]
        | multiple vs =>
          cases vs with
          | nil =>
            rw [hfv] at hc
            by_cases hcol : e'.1 = ""
            · simp [filterEntryCheck, hcol] at hc
            · simp [filterEntryCheck, hcol] at hc
          | cons v vs => simp [FilterValue.valuesOf]
      · exact ih h e' hmem

/-- Config validation (rule 3) guarantees the nonempty multi-value sets that
C4's theorem assumes. -/
theorem validate_filter_ok_no_empty (f : FilterConfig)
    (h : validate_filter f = .ok ()) :
    (∀ e ∈ f.includes, e.2.valuesOf ≠ []) ∧ (∀ e ∈ f.excludes, e.2.valuesOf ≠ []) := by
  rw [validate_filter] at h
  split at h
  · simp at h
  · cases hinc : filterEntriesCheck f.includes with
    | error m => rw [hinc] at h; simp at h
    | ok u =>
      cases u
      rw [hinc] at h; dsimp only at h
      cases hexc : filterEntriesCheck f.excludes with
      | error m => rw [hexc] at h; simp at h
      | ok u =>
        exact ⟨filterEntriesCheck_ok_no_empty hinc, filterEntriesCheck_ok_no_empty hexc⟩

/-! ## Funnel renderer (src/chart/funnel.rs `render`) and funnel legend
(src/render/mod.rs `get_legend_items`, Funnel arm) -/

/-- Step/value extraction (src/chart/funnel.rs lines 30-37): the i-th step is
paired with the i-th row's value of the values column whenever `i < height`
(the `zip` truncation); non-numeric cells fall back to 0. -/
def funnel_step_values (steps : List String) (vals : List Value) : List (String × ℚ) :=
  (steps.zip vals).map (fun p => (p.1, (extract_numeric_value p.2).getD 0))

/-- Default funnel ordering (src/chart/funnel.rs lines 71-74): stable sort,
largest value first. -/
def sort_desc_by_value (l : List (String × ℚ)) : List (String × ℚ) :=
  sortByLe (fun a b => decide (b.2 ≤ a.2)) l

/-- Step ordering of the funnel `render` (src/chart/funnel.rs lines 44-75):
an explicit step_order is validated for length against the EXTRACTED pair
count, then for index range, then applied by indexing; otherwise the pairs
are stable-sorted descending by value. -/
def funnel_ordered (sv : List (String × ℚ))
    (step_order : Option (List Nat)) : Except String (List (String × ℚ)) :=
  match step_order with
  | some so =>
    if so.length ≠ sv.length then
      .error ("Step order length (" ++ toString so.length
        ++ ") must match number of steps (" ++ toString sv.length ++ ")")
    else
      match so.find? (fun i => sv.length ≤ i) with
      | some i =>
        .error ("Invalid step order index: " ++ toString i
          ++ " (max: " ++ toString (sv.length - 1) ++ ")")
      | none => .ok (so.map (fun i => sv.getD i ("", 0)))
  | none => .ok (sort_desc_by_value sv)

/-- `render` for funnel charts (src/chart/funnel.rs lines 29-160), returning
the ordered step/value segments drawn top-to-bottom (`[]` when the early
returns draw nothing: empty extraction, or max value 0). -/
def funnel_render (steps : List String) (vals : List Value)
    (step_order : Option (List Nat)) : Except String (List (String × ℚ)) :=
  let sv := funnel_step_values steps vals
  if sv.isEmpty then .ok []
  else
    match funnel_ordered sv step_order with
    | .error e => .error e
    | .ok ordered =>
      if ordered.foldl (fun acc p => max acc p.2) 0 = 0 then .ok []
      else .ok ordered

/-- The Funnel arm of `get_legend_items` (src/render/mod.rs lines 260-279):
a step_order of matching length reorders the declared steps (out-of-range
indices silently skipped); otherwise steps as declared. -/
def get_legend_items_funnel (steps : List String)
    (step_order : Option (List Nat)) : List String :=
  match step_order with
  | some so =>
    if so.length = steps.length then so.filterMap (fun i => steps.get? i)
    else steps
  | none => steps

/-- C3 counterexample: steps [A, B] with values [1, 2] and no step-order are
drawn in descending value order [B, A], but the legend lists [A, B] — the
legend is NOT in the drawn order. -/
theorem funnel_legend_differs_from_drawn_order :
    funnel_render ["A", "B"] [Value.int 1, Value.int 2] none = .ok [("B", 2), ("A", 1)]
    ∧ get_legend_items_funnel ["A", "B"] none = ["A", "B"]
    ∧ ([("B", (2 : ℚ)), ("A", 1)].map Prod.fst ≠ ["A", "B"]) :=
  ⟨by decide, rfl, by decide⟩

theorem filterMap_get_eq_map (steps : List String) (so : List Nat)
    (h : ∀ i ∈ so, i < steps.length) :
    so.filterMap (fun i => steps.get? i) = so.map (fun i => steps.getD i "") := by
  induction so with
  | nil => simp
  | cons i is ih =>
    have hi : i < steps.length := h i (List.mem_cons_self i is)
    rw [List.filterMap_cons, List.map_cons, List.get?_eq_getElem?,
      List.getElem?_eq_getElem hi, ih (fun j hj => h j (List.mem_cons_of_mem _ hj)),
      List.getD_eq_getElem steps "" hi]

/-- C3 (amended): the funnel legend lists the step names in the supplied
step-order permutation when one of matching length is given; with no
step-order it lists them in declaration order (not in the drawn
descending-by-value order). -/
theorem get_legend_items_funnel_order (steps : List String) :
    get_legend_items_funnel steps none = steps
    ∧ ∀ so : List Nat, so.length = steps.length → (∀ i ∈ so, i < steps.length) →
        get_legend_items_funnel steps (some so) = so.map (fun i => steps.getD i "") := by
  refine ⟨rfl, ?_⟩
  intro so hlen hidx
  rw [get_legend_items_funnel, if_pos hlen]
  exact filterMap_get_eq_map steps so hidx

/-- Witness for C3: legend of steps [A, B, C] under step-order [2, 0, 1]. -/
theorem get_legend_items_funnel_order_witness :
    get_legend_items_funnel ["A", "B", "C"] none = ["A", "B", "C"]
    ∧ get_legend_items_funnel ["A", "B", "C"] (some [2, 0, 1]) = ["C", "A", "B"] := by
  have h := get_legend_items_funnel_order ["A", "B", "C"]
  exact ⟨h.1, by rw [h.2 [2, 0, 1] (by decide) (by decide)]; rfl⟩

theorem foldl_max_le {α : Type} [LinearOrder α] (l : List α) (a : α) :
    a ≤ l.foldl max a ∧ ∀ x ∈ l, x ≤ l.foldl max a := by
  induction l generalizing a with
  | nil => simp
  | cons y ys ih =>
    refine ⟨le_trans (le_max_left a y) (ih (max a y)).1, ?_⟩
    intro x hx
    rcases List.mem_cons.mp hx with rfl | hmem
    · exact le_trans (le_max_right a x) (ih (max a x)).1
    · exact (ih (max a y)).2 x hmem

theorem isEmpty_false_of_ne_nil {α : Type} {l : List α} (h : l ≠ []) :
    l.isEmpty = false := by
  cases l with
  | nil => exact absurd rfl h
  | cons a as => rfl

theorem funnel_step_values_length (steps : List String) (vals : List Value)
    (hfull : steps.length ≤ vals.length) :
    (funnel_step_values steps vals).length = steps.length := by
  simp [funnel_step_values, List.length_zip, Nat.min_eq_left hfull]

theorem funnel_step_values_fst (steps : List String) (vals : List Value)
    (i : Nat) (hi : i < (funnel_step_values steps vals).length) :
    ((funnel_step_values steps vals).getD i ("", 0)).1 = steps.getD i "" := by
  have hi2 : i < (steps.zip vals).length := by
    simpa [funnel_step_values] using hi
  have hi3 : i < steps.length := by
    rw [List.length_zip] at hi2
    exact lt_of_lt_of_le hi2 inf_le_left
  rw [List.getD_eq_getElem _ _ hi, List.getD_eq_getElem _ _ hi3]
  simp [funnel_step_values, List.getElem_zip]

/-- C7 (amended): once at least one step/value pair is extracted, an explicit
step_order is validated against the number of extracted pairs (which is the
step count whenever the frame has at least as many rows as steps, but less on
a shorter frame): a length mismatch or an out-of-range index fails with the
descriptive error; a valid in-range order whose selected values include a
positive one makes the drawn segment order exactly that reordering of the
extracted pairs, and (when all steps were extracted) the drawn step-name
order coincides with the legend order. -/
theorem funnel_render_step_order (steps : List String) (vals : List Value)
    (so : List Nat) (hne : funnel_step_values steps vals ≠ []) :
    (so.length ≠ (funnel_step_values steps vals).length →
      funnel_render steps vals (some so)
        = .error ("Step order length (" ++ toString so.length
            ++ ") must match number of steps ("
            ++ toString (funnel_step_values steps vals).length ++ ")"))
    ∧ (∀ j, so.length = (funnel_step_values steps vals).length →
        so.find? (fun i => (funnel_step_values steps vals).length ≤ i) = some j →
        funnel_render steps vals (some so)
          = .error ("Invalid step order index: " ++ toString j
              ++ " (max: " ++ toString ((funnel_step_values steps vals).length - 1) ++ ")"))
    ∧ (so.length = (funnel_step_values steps vals).length →
        (∀ i ∈ so, i < (funnel_step_values steps vals).length) →
        (∃ i ∈ so, 0 < ((funnel_step_values steps vals).getD i ("", 0)).2) →
        funnel_render steps vals (some so)
          = .ok (so.map (fun i => (funnel_step_values steps vals).getD i ("", 0)))
        ∧ (steps.length ≤ vals.length →
            (so.map (fun i => (funnel_step_values steps vals).getD i ("", 0))).map Prod.fst
              = get_legend_items_funnel steps (some so))) := by
  have hemp := isEmpty_false_of_ne_nil hne
  refine ⟨?_, ?_, ?_⟩
  · intro hlen
    rw [funnel_render]
    simp only [hemp, Bool.false_eq_true, if_false]
    rw [funnel_ordered, if_pos hlen]
  · intro j hlen hfind
    rw [funnel_render]
    simp only [hemp, Bool.false_eq_true, if_false]
    rw [funnel_ordered, if_neg (fun hc => hc hlen), hfind]
  · intro hlen hidx hpos
    have hfind : so.find? (fun i => (funnel_step_values steps vals).length ≤ i) = none := by
      rw [List.find?_eq_none]
      intro i hi
      simpa using Nat.not_le.mpr (hidx i hi)
    have hdrawn : funnel_render steps vals (some so)
        = .ok (so.map (fun i => (funnel_step_values steps vals).getD i ("", 0))) := by
      rw [funnel_render]
      simp only [hemp, Bool.false_eq_true, if_false]
      rw [funnel_ordered, if_neg (fun hc => hc hlen), hfind]
      dsimp only
      rw [if_neg]
      obtain ⟨i, hiso, hipos⟩ := hpos
      intro h0
      have hmem : ((funnel_step_values steps vals).getD i ("", 0)).2
          ∈ (so.map (fun i => (funnel_step_values steps vals).getD i ("", 0))).map Prod.snd :=
        List.mem_map_of_mem _ (List.mem_map_of_mem _ hiso)
      have hle := (foldl_max_le
        ((so.map (fun i => (funnel_step_values steps vals).getD i ("", 0))).map Prod.snd) 0).2
        _ hmem
      rw [List.foldl_map, h0] at hle
      exact absurd (lt_of_lt_of_le hipos hle) (lt_irrefl 0)
    refine ⟨hdrawn, ?_⟩
    intro hfull
    have hsvlen := funnel_step_values_length steps vals hfull
    rw [get_legend_items_funnel, if_pos (hlen.trans hsvlen),
      filterMap_get_eq_map steps so (fun i hi => hsvlen ▸ hidx i hi),
      List.map_map]
    exact List.map_congr_left
      (fun i hi => funnel_step_values_fst steps vals i (hidx i hi))

/-- Witness for C7: steps [A, B] with values [5, 3]; step-order [0] has the
wrong length and fails; step-order [0, 2] has an out-of-range index and
fails; the valid permutation [1, 0] is drawn as [B, A] and the legend shows
the same order. -/
theorem funnel_render_step_order_witness :
    funnel_render ["A", "B"] [Value.int 5, Value.int 3] (some [0])
      = .error "Step order length (1) must match number of steps (2)"
    ∧ funnel_render ["A", "B"] [Value.int 5, Value.int 3] (some [0, 2])
      = .error "Invalid step order index: 2 (max: 1)"
    ∧ funnel_render ["A", "B"] [Value.int 5, Value.int 3] (some [1, 0])
      = .ok [("B", 3), ("A", 5)]
    ∧ get_legend_items_funnel ["A", "B"] (some [1, 0]) = ["B", "A"] := by
  have h1 := (funnel_render_step_order ["A", "B"] [Value.int 5, Value.int 3] [0]
    (by decide)).1 (by decide)
  have h2 := (funnel_render_step_order ["A", "B"] [Value.int 5, Value.int 3] [0, 2]
    (by decide)).2.1 2 (by decide) (by decide)
  have h3 := (funnel_render_step_order ["A", "B"] [Value.int 5, Value.int 3] [1, 0]
    (by decide)).2.2 (by decide) (by decide) ⟨1, by decide, by decide⟩
  refine ⟨?_, ?_, ?_, ?_⟩
  · rw [h1]; rfl
  · rw [h2]; rfl
  · rw [h3.1]; rfl
  · rw [← h3.2 (by decide)]; rfl

/-- C7 counterexample: with steps [A, B] but an empty frame no pairs are
extracted, so render returns Ok before ever validating the step_order [0],
whose length 1 differs from the step count 2 — no descriptive error is
raised. -/
theorem funnel_render_skips_validation_on_empty :
    funnel_render ["A", "B"] [] (some [0]) = .ok []
    ∧ ([0] : List Nat).length ≠ (["A", "B"] : List String).length :=
  ⟨rfl, by decide⟩

/-! ## Stacked-bar renderer (src/chart/bar_stacked.rs `render_stacked_bar_with_x`) -/

/-- An overwriting association-list insert, modelling `HashMap::insert`. -/
def insertA {κ β : Type} [DecidableEq κ] (k : κ) (v : β) : List (κ × β) → List (κ × β)
  | [] => [(k, v)]
  | (k2, v2) :: rest => if k = k2 then (k, v) :: rest else (k2, v2) :: insertA k v rest

/-- First-occurrence deduplication, modelling the `if !categories.contains`
push and the order-insensitive collection into a `HashSet`. -/
def dedupFirst {κ : Type} [DecidableEq κ] (seen : List κ) : List κ → List κ
  | [] => []
  | x :: xs => if x ∈ seen then dedupFirst seen xs else x :: dedupFirst (x :: seen) xs

/-- Row extraction of `render_stacked_bar_with_x` (src/chart/bar_stacked.rs
lines 52-65): up to 50 rows, debug-formatted x and group keys, numeric y
with 0 fallback. -/
def stacked_rows (xs ys gs : List Value) : List (String × ℚ × String) :=
  ((xs.zip (ys.zip gs)).take 50).map
    (fun p => (fmtValue p.1, ((extract_numeric_value p.2.1).getD 0, fmtValue p.2.2)))

/-- `category_data` (nested HashMap with overwriting inserts). -/
def category_data (rows : List (String × ℚ × String)) :
    List (String × List (String × ℚ)) :=
  rows.foldl
    (fun m r => insertA r.1 (insertA r.2.2 r.2.1 ((m.lookup r.1).getD [])) m) []

/-- `categories`: x keys in first-appearance order. -/
def categories (rows : List (String × ℚ × String)) : List String :=
  dedupFirst [] (rows.map (fun r => r.1))

/-- Lexicographic comparison of char lists (the order `Vec<String>::sort`
uses, byte-lexicographic on the encoded text). -/
def charLe : List Char → List Char → Bool
  | [], _ => true
  | _ :: _, [] => false
  | c :: cs, d :: ds => if c < d then true else if d < c then false else charLe cs ds

/-- Lexicographic order on strings, as an executable relation. -/
def strLe (a b : String) : Prop := charLe a.data b.data = true

instance : DecidableRel strLe := fun a b => by unfold strLe; infer_instance

theorem charLe_total : ∀ xs ys : List Char, charLe xs ys = true ∨ charLe ys xs = true := by
  intro xs
  induction xs with
  | nil => intro ys; left; rfl
  | cons c cs ih =>
    intro ys
    cases ys with
    | nil => right; rfl
    | cons d ds =>
      rcases lt_trichotomy c d with h | h | h
      · left; simp [charLe, h]
      · subst h
        rcases ih ds with h2 | h2
        · left; simp [charLe, lt_irrefl, h2]
        · right; simp [charLe, lt_irrefl, h2]
      · right; simp [charLe, h]

theorem charLe_trans : ∀ xs ys zs : List Char,
    charLe xs ys = true → charLe ys zs = true → charLe xs zs = true := by
  intro xs
  induction xs with
  | nil => intro ys zs _ _; rfl
  | cons c cs ih =>
    intro ys zs h1 h2
    cases ys with
    | nil => simp [charLe] at h1
    | cons d ds =>
      cases zs with
      | nil => simp [charLe] at h2
      | cons e es =>
        by_cases hcd : c < d
        · by_cases hde : d < e
          · simp [charLe, lt_trans hcd hde]
          · by_cases hed : e < d
            · simp [charLe, hde, hed] at h2
            · have hdeq : d = e := le_antisymm (not_lt.mp hed) (not_lt.mp hde)
              subst hdeq
              simp [charLe, hcd]
        · by_cases hdc : d < c
          · simp [charLe, hcd, hdc] at h1
          · have hceq : c = d := le_antisymm (not_lt.mp hdc) (not_lt.mp hcd)
            subst hceq
            rw [charLe, if_neg (lt_irrefl c), if_neg (lt_irrefl c)] at h1
            by_cases hce : c < e
            · simp [charLe, hce]
            · by_cases hec : e < c
              · simp [charLe, hce, hec] at h2
              · have hceq2 : c = e := le_antisymm (not_lt.mp hec) (not_lt.mp hce)
                subst hceq2
                rw [charLe, if_neg (lt_irrefl c), if_neg (lt_irrefl c)] at h2 ⊢
                exact ih ds es h1 h2

instance : IsTotal String strLe := ⟨fun a b => charLe_total a.data b.data⟩

instance : IsTrans String strLe := ⟨fun a b c => charLe_trans a.data b.data c.data⟩

/-- `groups` (src/chart/bar_stacked.rs lines 72-73): the distinct group keys,
sorted lexicographically. -/
def groups (rows : List (String × ℚ × String)) : List String :=
  List.insertionSort strLe (dedupFirst [] (rows.map (fun r => r.2.2)))

/-- The per-(category, group) raw value: looked-up entry or 0. -/
def group_value (cd : List (String × List (String × ℚ))) (c g : String) : ℚ :=
  (((cd.lookup c).getD []).lookup g).getD 0

/-- The cumulative-interval loop (src/chart/bar_stacked.rs lines 78-88):
push (running, running + value) per group and accumulate. -/
def stacksFrom : List ℚ → ℚ → List (ℚ × ℚ)
  | [], _ => []
  | v :: vs, run => (run, run + v) :: stacksFrom vs (run + v)

/-- One category's stack intervals, iterating `groups` in order from 0. -/
def category_stacks (cd : List (String × List (String × ℚ)))
    (gps : List String) (c : String) : List (ℚ × ℚ) :=
  stacksFrom (gps.map (group_value cd c)) 0

/-- `stacked_data`: one interval list per category (category index elided). -/
def stacked_data (rows : List (String × ℚ × String)) : List (List (ℚ × ℚ)) :=
  (categories rows).map (category_stacks (category_data rows) (groups rows))

/-- `f32::max`, written executably. -/
def qmax (a b : ℚ) : ℚ := if a ≤ b then b else a

theorem qmax_eq_max (a b : ℚ) : qmax a b = max a b := by
  rw [qmax, max_def]

theorem foldl_qmax_eq (l : List ℚ) : ∀ a, l.foldl qmax a = l.foldl max a := by
  induction l with
  | nil => intro a; rfl
  | cons x xs ih => intro a; simp only [List.foldl_cons, qmax_eq_max, ih]

/-- `max_height` (src/chart/bar_stacked.rs lines 94-96): fold of each
category's final cumulative end (0 when absent), starting from 0. -/
def max_height (rows : List (String × ℚ × String)) : ℚ :=
  ((stacked_data rows).map (fun sd => (sd.getLast?.map Prod.snd).getD 0)).foldl qmax 0

theorem dedupFirst_mem (x : String) :
    ∀ (l seen : List String), x ∈ dedupFirst seen l ↔ (x ∈ l ∧ x ∉ seen) := by
  intro l
  induction l with
  | nil => intro seen; simp [dedupFirst]
  | cons y ys ih =>
    intro seen
    rw [dedupFirst]
    by_cases hy : y ∈ seen
    · rw [if_pos hy, ih seen]
      constructor
      · rintro ⟨h1, h2⟩; exact ⟨List.mem_cons_of_mem _ h1, h2⟩
      · rintro ⟨h1, h2⟩
        rcases List.mem_cons.mp h1 with rfl | h1
        · exact absurd hy h2
        · exact ⟨h1, h2⟩
    · rw [if_neg hy]
      by_cases hxy : x = y
      · subst hxy
        simp [hy]
      · constructor
        · intro hmem
          rcases List.mem_cons.mp hmem with rfl | hmem
          · exact absurd rfl hxy
          · have := (ih (y :: seen)).mp hmem
            exact ⟨List.mem_cons_of_mem _ this.1,
              fun hc => this.2 (List.mem_cons_of_mem _ hc)⟩
        · rintro ⟨h1, h2⟩
          rcases List.mem_cons.mp h1 with rfl | h1
          · exact absurd rfl hxy
          · exact List.mem_cons_of_mem _ ((ih (y :: seen)).mpr
              ⟨h1, fun hc => by
                rcases List.mem_cons.mp hc with rfl | hc
                · exact hxy rfl
                · exact h2 hc⟩)

theorem dedupFirst_nodup : ∀ (l seen : List String), (dedupFirst seen l).Nodup := by
  intro l
  induction l with
  | nil => intro seen; simp [dedupFirst]
  | cons y ys ih =>
    intro seen
    rw [dedupFirst]
    by_cases hy : y ∈ seen
    · rw [if_pos hy]; exact ih seen
    · rw [if_neg hy]
      refine List.nodup_cons.mpr ⟨?_, ih (y :: seen)⟩
      intro hc
      exact ((dedupFirst_mem y ys (y :: seen)).mp hc).2 (List.mem_cons_self y seen)

theorem foldl_max_mem {α : Type} [LinearOrder α] (l : List α) (a : α) :
    l.foldl max a ∈ a :: l := by
  induction l generalizing a with
  | nil => simp
  | cons y ys ih =>
    have := ih (max a y)
    rcases List.mem_cons.mp this with heq | hmem
    · rcases max_choice a y with hc | hc
      · exact List.mem_cons.mpr (.inl (heq.trans hc))
      · exact List.mem_cons.mpr (.inr (List.mem_cons.mpr (.inl (heq.trans hc))))
    · exact List.mem_cons.mpr (.inr (List.mem_cons.mpr (.inr hmem)))

theorem stacksFrom_eq (vals : List ℚ) :
    ∀ run, stacksFrom vals run
      = (List.range vals.length).map (fun j =>
          (run + (vals.take j).sum, run + (vals.take (j+1)).sum)) := by
  induction vals with
  | nil => intro run; simp [stacksFrom]
  | cons v vs ih =>
    intro run
    rw [stacksFrom, ih (run + v), List.length_cons, List.range_succ_eq_map,
      List.map_cons, List.map_map]
    congr 1
    · simp
    · apply List.map_congr_left
      intro j _
      simp [Function.comp, List.take_succ_cons, add_assoc]

theorem stacksFrom_ne_nil (v : ℚ) (vs : List ℚ) (run : ℚ) :
    stacksFrom (v :: vs) run ≠ [] := by
  rw [stacksFrom]; exact List.cons_ne_nil _ _

theorem stacksFrom_getLast (vals : List ℚ) (h : vals ≠ []) :
    ∀ run, ∃ s, (stacksFrom vals run).getLast? = some (s, run + vals.sum) := by
  induction vals with
  | nil => exact absurd rfl h
  | cons v vs ih =>
    intro run
    cases vs with
    | nil => exact ⟨run, by simp [stacksFrom]⟩
    | cons w ws =>
      obtain ⟨s, hs⟩ := ih (List.cons_ne_nil w ws) (run + v)
      refine ⟨s, ?_⟩
      have hsf : stacksFrom (w :: ws) (run + v)
          = (run + v, run + v + w) :: stacksFrom ws (run + v + w) := rfl
      rw [stacksFrom, hsf, List.getLast?_cons_cons, ← hsf, hs]
      simp [add_assoc]

theorem category_stacks_lastEnd (cd : List (String × List (String × ℚ)))
    (gps : List String) (c : String) :
    ((category_stacks cd gps c).getLast?.map Prod.snd).getD 0
      = (gps.map (group_value cd c)).sum := by
  rw [category_stacks]
  cases hv : gps.map (group_value cd c) with
  | nil => simp [stacksFrom]
  | cons v vs =>
    obtain ⟨s, hs⟩ := stacksFrom_getLast (v :: vs) (List.cons_ne_nil v vs) 0
    rw [hs]
    simp

/-- C5: stacked-bar iterates the distinct group keys in lexicographic sorted
order; each category's intervals are the cumulative (prefix-sum, next
prefix-sum) pairs starting at 0 in that group order; the final cumulative
end of a category equals the sum of its per-group raw values exactly; and
the tracked axis-scaling maximum is the grand maximum of those final ends
(whenever some final end is nonnegative — negative-only stacks clamp to the
fold's 0 start and abort drawing). -/
theorem render_stacked_bar_spec (rows : List (String × ℚ × String)) :
    List.Sorted strLe (groups rows)
    ∧ (groups rows).Nodup
    ∧ (∀ g, g ∈ groups rows ↔ g ∈ rows.map (fun r => r.2.2))
    ∧ (∀ c, category_stacks (category_data rows) (groups rows) c
        = (List.range (groups rows).length).map (fun j =>
            ((((groups rows).map (group_value (category_data rows) c)).take j).sum,
             (((groups rows).map (group_value (category_data rows) c)).take (j+1)).sum)))
    ∧ (∀ c, ((category_stacks (category_data rows) (groups rows) c).getLast?.map Prod.snd).getD 0
        = ((groups rows).map (group_value (category_data rows) c)).sum)
    ∧ ((∃ c ∈ categories rows,
          0 ≤ ((groups rows).map (group_value (category_data rows) c)).sum) →
        max_height rows
            ∈ (categories rows).map
                (fun c => ((groups rows).map (group_value (category_data rows) c)).sum)
        ∧ ∀ e ∈ (categories rows).map
              (fun c => ((groups rows).map (group_value (category_data rows) c)).sum),
            e ≤ max_height rows) := by
  have hperm := List.perm_insertionSort strLe
    (dedupFirst [] (rows.map (fun r => r.2.2)))
  have hends : (stacked_data rows).map (fun sd => (sd.getLast?.map Prod.snd).getD 0)
      = (categories rows).map
          (fun c => ((groups rows).map (group_value (category_data rows) c)).sum) := by
    rw [stacked_data, List.map_map]
    exact List.map_congr_left
      (fun c _ => category_stacks_lastEnd (category_data rows) (groups rows) c)
  refine ⟨?_, ?_, ?_, ?_, ?_, ?_⟩
  · exact List.sorted_insertionSort strLe _
  · exact hperm.nodup_iff.mpr (dedupFirst_nodup _ [])
  · intro g
    rw [groups, hperm.mem_iff, dedupFirst_mem]
    simp
  · intro c
    rw [category_stacks, stacksFrom_eq _ 0]
    simp only [List.length_map]
    apply List.map_congr_left
    intro j _
    simp
  · exact category_stacks_lastEnd (category_data rows) (groups rows)
  · intro hex
    constructor
    · have hmem := foldl_max_mem
        ((stacked_data rows).map (fun sd => (sd.getLast?.map Prod.snd).getD 0)) 0
      rw [max_height, foldl_qmax_eq]
      rcases List.mem_cons.mp hmem with heq | hmem2
      · obtain ⟨c, hc, hcpos⟩ := hex
        have hin : ((groups rows).map (group_value (category_data rows) c)).sum
            ∈ (categories rows).map
                (fun c => ((groups rows).map (group_value (category_data rows) c)).sum) :=
          List.mem_map_of_mem _ hc
        have hle := (foldl_max_le
          ((stacked_data rows).map (fun sd => (sd.getLast?.map Prod.snd).getD 0)) 0).2
          _ (by rw [hends]; exact hin)
        rw [heq] at hle
        have : ((groups rows).map (group_value (category_data rows) c)).sum = 0 :=
          le_antisymm hle hcpos
        rw [heq, ← this]
        exact hin
      · rw [← hends]; exact hmem2
    · intro e he
      rw [max_height, foldl_qmax_eq]
      exact (foldl_max_le _ 0).2 e (by rw [hends]; exact he)

/-- Witness for C5: columns x = [Q1, Q1, Q2], y = [3, 4, 5],
group = [b, a, b] extract to three keyed rows; groups sort to [a, b]; Q1
stacks to [(0,4),(4,7)] with final end 7 = 4 + 3; the axis maximum 7 is the
grand maximum of the final ends {7, 5}. -/
theorem render_stacked_bar_spec_witness :
    stacked_rows [Value.str "Q1", Value.str "Q1", Value.str "Q2"]
        [Value.int 3, Value.int 4, Value.int 5]
        [Value.str "b", Value.str "a", Value.str "b"]
      = [("\"Q1\"", ((3 : ℚ), "\"b\"")), ("\"Q1\"", ((4 : ℚ), "\"a\"")),
         ("\"Q2\"", ((5 : ℚ), "\"b\""))]
    ∧ groups [("\"Q1\"", ((3 : ℚ), "\"b\"")), ("\"Q1\"", ((4 : ℚ), "\"a\"")),
        ("\"Q2\"", ((5 : ℚ), "\"b\""))] = ["\"a\"", "\"b\""]
    ∧ category_stacks
        (category_data [("\"Q1\"", ((3 : ℚ), "\"b\"")), ("\"Q1\"", ((4 : ℚ), "\"a\"")),
          ("\"Q2\"", ((5 : ℚ), "\"b\""))])
        ["\"a\"", "\"b\""] "\"Q1\"" = [(0, 4), (4, 7)]
    ∧ max_height [("\"Q1\"", ((3 : ℚ), "\"b\"")), ("\"Q1\"", ((4 : ℚ), "\"a\"")),
        ("\"Q2\"", ((5 : ℚ), "\"b\""))] = 7
    ∧ max_height [("\"Q1\"", ((3 : ℚ), "\"b\"")), ("\"Q1\"", ((4 : ℚ), "\"a\"")),
          ("\"Q2\"", ((5 : ℚ), "\"b\""))]
        ∈ (categories [("\"Q1\"", ((3 : ℚ), "\"b\"")), ("\"Q1\"", ((4 : ℚ), "\"a\"")),
            ("\"Q2\"", ((5 : ℚ), "\"b\""))]).map
            (fun c => ((groups [("\"Q1\"", ((3 : ℚ), "\"b\"")), ("\"Q1\"", ((4 : ℚ), "\"a\"")),
                ("\"Q2\"", ((5 : ℚ), "\"b\""))]).map
              (group_value (category_data [("\"Q1\"", ((3 : ℚ), "\"b\"")),
                ("\"Q1\"", ((4 : ℚ), "\"a\"")), ("\"Q2\"", ((5 : ℚ), "\"b\""))]) c)).sum) := by
  refine ⟨by decide, by decide, ?_, ?_, ?_⟩
  · simp +decide [category_stacks, category_data, group_value, insertA, stacksFrom, List.lookup]
    all_goals norm_num
  · simp +decide [max_height, stacked_data, categories, category_stacks, category_data,
      groups, group_value, insertA, dedupFirst, stacksFrom, qmax,
      List.insertionSort, List.orderedInsert, List.lookup]
    all_goals norm_num
  · exact ((render_stacked_bar_spec [("\"Q1\"", ((3 : ℚ), "\"b\"")),
      ("\"Q1\"", ((4 : ℚ), "\"a\"")), ("\"Q2\"", ((5 : ℚ), "\"b\""))]).2.2.2.2.2
      ⟨"\"Q1\"", by decide, by
        simp +decide [categories, category_data, groups, group_value,
          insertA, dedupFirst, List.insertionSort, List.orderedInsert, List.lookup]
        all_goals norm_num⟩).1

/-! ## Retention renderer (src/chart/retention.rs `render`) -/

/-- Rust `as i32`: truncation toward zero of the extracted f32. -/
def ratTrunc (q : ℚ) : Int := q.num.tdiv q.den

/-- Row extraction of the retention `render` (src/chart/retention.rs lines
34-44): up to 100 rows, debug-formatted cohort key, truncated integer
period, numeric user count with 0 fallback. -/
def retention_rows (cs ps us : List Value) : List (String × Int × ℚ) :=
  ((cs.zip (ps.zip us)).take 100).map
    (fun p => (fmtValue p.1, (ratTrunc ((extract_numeric_value p.2.1).getD 0),
      (extract_numeric_value p.2.2).getD 0)))

/-- `retention_data`: cohort → (period → users), overwriting inserts. -/
def retention_data (rows : List (String × Int × ℚ)) : List (String × List (Int × ℚ)) :=
  rows.foldl
    (fun m r => insertA r.1 (insertA r.2.1 r.2.2 ((m.lookup r.1).getD [])) m) []

/-- `cohorts` (src/chart/retention.rs lines 51-52): sorted distinct keys. -/
def cohorts (rows : List (String × Int × ℚ)) : List String :=
  List.insertionSort strLe (dedupFirst [] (rows.map (fun r => r.1)))

/-- `periods` (src/chart/retention.rs lines 53-54): sorted distinct periods. -/
def periods (rows : List (String × Int × ℚ)) : List Int :=
  List.insertionSort (· ≤ ·) (dedupFirst [] (rows.map (fun r => r.2.1)))

/-- One cohort's period → users map. -/
def cohort_map (rows : List (String × Int × ℚ)) (c : String) : List (Int × ℚ) :=
  ((retention_data rows).lookup c).getD []

/-- The baseline (src/chart/retention.rs lines 63-66): the first value this
cohort has along the ascending period list, 0 when none. -/
def baseline (rows : List (String × Int × ℚ)) (c : String) : ℚ :=
  (((periods rows).filterMap (fun p => (cohort_map rows c).lookup p)).head?).getD 0

/-- The first period (in ascending order) at which the cohort was observed. -/
def first_observed (rows : List (String × Int × ℚ)) (c : String) : Option Int :=
  ((periods rows).filter (fun p => ((cohort_map rows c).lookup p).isSome)).head?

/-- The retention percentage (src/chart/retention.rs lines 68-71):
`(value / baseline) * 100` when the baseline is positive, else 0; an
unobserved period contributes value 0. -/
def retention_pct (rows : List (String × Int × ℚ)) (c : String) (p : Int) : ℚ :=
  if 0 < baseline rows c then
    ((cohort_map rows c).lookup p).getD 0 / baseline rows c * 100
  else 0

/-- `retention_matrix`: cohorts as rows, periods as columns, in sorted order. -/
def retention_matrix (rows : List (String × Int × ℚ)) : List (List ℚ) :=
  (cohorts rows).map (fun c => (periods rows).map (retention_pct rows c))

/-- `render` for retention charts (src/chart/retention.rs lines 17-137),
returning the drawn percentage matrix (`[]` when the early returns draw
nothing: no extracted rows, or an all-zero matrix maximum). -/
def retention_render (cs ps us : List Value) : Except String (List (List ℚ)) :=
  let rows := retention_rows cs ps us
  if rows.isEmpty then .ok []
  else
    let matrix := retention_matrix rows
    if matrix.flatten.foldl qmax 0 = 0 then .ok [] else .ok matrix

theorem first_observed_lookup_aux (m : List (Int × ℚ)) :
    ∀ (ps : List Int) (p : Int),
      (ps.filter (fun q => (m.lookup q).isSome)).head? = some p →
      m.lookup p = some (((ps.filterMap (fun q => m.lookup q)).head?).getD 0) := by
  intro ps
  induction ps with
  | nil => intro p h; simp at h
  | cons q qs ih =>
    intro p h
    cases hq : m.lookup q with
    | some v =>
      rw [List.filter_cons_of_pos (by simp [hq])] at h
      simp only [List.filterMap_cons, hq]
      simp only [List.head?_cons, Option.some.injEq] at h ⊢
      rw [← h, hq]
      simp
    | none =>
      rw [List.filter_cons_of_neg (by simp [hq])] at h
      simp only [List.filterMap_cons, hq]
      exact ih p h

/-- C6 (amended): for every cohort, when the baseline is positive the
retention percentage at any period P equals 100·users[P]/baseline (users[P]
read as 0 where unobserved); when the baseline is not positive (absent, zero
or negative) every percentage of that cohort is 0; the baseline is exactly
the cohort's value at its first observed period, so the percentage there is
exactly 100 whenever that value is positive. -/
theorem retention_pct_spec (rows : List (String × Int × ℚ)) (c : String) :
    (∀ p, 0 < baseline rows c →
      retention_pct rows c p
        = 100 * (((cohort_map rows c).lookup p).getD 0) / baseline rows c)
    ∧ (∀ p, baseline rows c ≤ 0 → retention_pct rows c p = 0)
    ∧ (∀ p, first_observed rows c = some p →
        (cohort_map rows c).lookup p = some (baseline rows c))
    ∧ (∀ p, first_observed rows c = some p → 0 < baseline rows c →
        retention_pct rows c p = 100) := by
  have hfo : ∀ p, first_observed rows c = some p →
      (cohort_map rows c).lookup p = some (baseline rows c) := by
    intro p h
    exact first_observed_lookup_aux (cohort_map rows c) (periods rows) p h
  refine ⟨?_, ?_, hfo, ?_⟩
  · intro p hb
    rw [retention_pct, if_pos hb]
    ring
  · intro p hb
    rw [retention_pct, if_neg (not_lt.mpr hb)]
  · intro p h hb
    rw [retention_pct, if_pos hb, hfo p h]
    simp only [Option.getD_some]
    rw [div_self (ne_of_gt hb), one_mul]

/-- Witness for C6: cohort c1 with users 50 at period 1 and 20 at period 2
has baseline 50, retention 100% at its first observed period 1 and 40% at
period 2. -/
theorem retention_pct_spec_witness :
    retention_rows [Value.str "c1", Value.str "c1"] [Value.int 1, Value.int 2]
        [Value.int 50, Value.int 20]
      = [("\"c1\"", ((1 : Int), (50 : ℚ))), ("\"c1\"", ((2 : Int), (20 : ℚ)))]
    ∧ baseline [("\"c1\"", ((1 : Int), (50 : ℚ))), ("\"c1\"", ((2 : Int), (20 : ℚ)))] "\"c1\""
      = 50
    ∧ retention_pct [("\"c1\"", ((1 : Int), (50 : ℚ))), ("\"c1\"", ((2 : Int), (20 : ℚ)))]
        "\"c1\"" 1 = 100
    ∧ retention_pct [("\"c1\"", ((1 : Int), (50 : ℚ))), ("\"c1\"", ((2 : Int), (20 : ℚ)))]
        "\"c1\"" 2 = 40 := by
  have hb : baseline [("\"c1\"", ((1 : Int), (50 : ℚ))), ("\"c1\"", ((2 : Int), (20 : ℚ)))]
      "\"c1\"" = 50 := by
    simp +decide [baseline, periods, cohort_map, retention_data, insertA, dedupFirst,
      List.insertionSort, List.orderedInsert, List.lookup]
  have h := retention_pct_spec
    [("\"c1\"", ((1 : Int), (50 : ℚ))), ("\"c1\"", ((2 : Int), (20 : ℚ)))] "\"c1\""
  refine ⟨by decide, hb, ?_, ?_⟩
  · refine h.2.2.2 1 ?_ (by rw [hb]; norm_num)
    simp +decide [first_observed, periods, cohort_map, retention_data, insertA,
      dedupFirst, List.insertionSort, List.orderedInsert, List.lookup]
  · rw [h.1 2 (by rw [hb]; norm_num), hb]
    have hlk : (cohort_map [("\"c1\"", ((1 : Int), (50 : ℚ))),
        ("\"c1\"", ((2 : Int), (20 : ℚ)))] "\"c1\"").lookup 2 = some 20 := by
      simp +decide [cohort_map, retention_data, insertA, List.lookup]
    rw [hlk]
    norm_num

/-- C6 counterexample: a cohort whose only observation is users = -5 at
period 1 has a nonzero baseline (-5), yet its retention percentage at its
first observed period is 0, not the claimed 100%. -/
theorem retention_negative_baseline_not_100 :
    baseline [("\"c\"", ((1 : Int), (-5 : ℚ)))] "\"c\"" = -5
    ∧ first_observed [("\"c\"", ((1 : Int), (-5 : ℚ)))] "\"c\"" = some 1
    ∧ retention_pct [("\"c\"", ((1 : Int), (-5 : ℚ)))] "\"c\"" 1 = 0
    ∧ ((-5 : ℚ) ≠ 0) ∧ ((0 : ℚ) ≠ 100) := by
  have hb : baseline [("\"c\"", ((1 : Int), (-5 : ℚ)))] "\"c\"" = -5 := by
    simp +decide [baseline, periods, cohort_map, retention_data, insertA, dedupFirst,
      List.insertionSort, List.orderedInsert, List.lookup]
  refine ⟨hb, ?_, ?_, by norm_num, by norm_num⟩
  · simp +decide [first_observed, periods, cohort_map, retention_data, insertA,
      dedupFirst, List.insertionSort, List.orderedInsert, List.lookup]
  · rw [retention_pct, if_neg]
    rw [hb]
    norm_num

/-! ## Simple bar and scatter extraction (src/chart/bar.rs, scatter.rs),
and the empty-input behaviour shared by the renderers -/

/-- `render_simple_bar_chart` (src/chart/bar.rs lines 27-91): up to 20
(row-index, numeric y) points, empty extraction returns Ok drawing nothing. -/
def render_simple_bar_chart (xs ys : List Value) : Except String (List (Nat × ℚ)) :=
  let pts := ((xs.zip ys).take 20).enum.map
    (fun p => (p.1, (extract_numeric_value p.2.2).getD 0))
  if pts.isEmpty then .ok [] else .ok pts

/-- `render` for scatter charts (src/chart/scatter.rs lines 7-114): up to
1000 points, x falling back to the row index, y to 0; empty extraction
returns Ok drawing nothing. -/
def scatter_render (xs ys : List Value) : Except String (List (ℚ × ℚ)) :=
  let pts := ((xs.zip ys).take 1000).enum.map
    (fun p => ((extract_numeric_value p.2.1).getD (p.1 : ℚ),
      (extract_numeric_value p.2.2).getD 0))
  if pts.isEmpty then .ok [] else .ok pts

/-- C10: when no data points can be extracted — a zero-row frame for bar,
scatter and retention, or a funnel whose extracted step list is empty
(zero-row frame or no steps) — every renderer returns Ok having drawn
nothing; an empty input is never a render failure. -/
theorem render_empty_input_ok :
    (∀ (steps : List String) (so : Option (List Nat)), funnel_render steps [] so = .ok [])
    ∧ (∀ (vals : List Value) (so : Option (List Nat)), funnel_render [] vals so = .ok [])
    ∧ retention_render [] [] [] = .ok []
    ∧ render_simple_bar_chart [] [] = .ok []
    ∧ scatter_render [] [] = .ok [] := by
  refine ⟨?_, ?_, rfl, rfl, rfl⟩
  · intro steps so
    simp [funnel_render, funnel_step_values, List.zip_nil_right]
  · intro vals so
    rfl

/-! ## Batch driver (src/cli.rs `render_batch_charts`) -/

/-- One entry of a batch spec, reduced to the fields the driver reads: the
optional title and the optional per-chart data-source path. -/
structure BatchChart where
  title : Option String
  data : Option String
deriving DecidableEq

/-- The display name (src/cli.rs lines 1128-1129): the title, or
`chart_{index+1}`. -/
def chart_name (i : Nat) (c : BatchChart) : String :=
  c.title.getD ("chart_" ++ toString (i + 1))

/-- The observable outcome of a completed batch run: indices whose output
file was produced, names logged as failed, and whether the process exits
non-zero (`std::process::exit(1)` when any chart failed). -/
structure BatchResult where
  outputs : List Nat
  failures : List String
  exit_nonzero : Bool
deriving DecidableEq

/-- The chart loop of `render_batch_charts` (src/cli.rs lines 1123-1192).
`proc` abstracts `process_single_chart` (validation, data load, render) as a
per-chart success flag.  A chart with no per-chart data source and no spec
default hits the `ok_or_else(...)?` at lines 1139-1145 and aborts the whole
function with the anyhow error; a `proc` failure is caught by the match at
lines 1170-1179, logged with the chart's name, and counted. -/
def render_batch_go (dflt : Option String) (proc : Nat → BatchChart → Bool) :
    Nat → List BatchChart → List Nat → List String → Nat → Nat →
    Except String BatchResult
  | _, [], outs, logs, _, f => .ok ⟨outs, logs, decide (0 < f)⟩
  | i, c :: rest, outs, logs, s, f =>
    match c.data <|> dflt with
    | none => .error ("No data source specified for chart \x27" ++ chart_name i c ++ "\x27")
    | some _ =>
      if proc i c then render_batch_go dflt proc (i + 1) rest (outs ++ [i]) logs (s + 1) f
      else render_batch_go dflt proc (i + 1) rest outs (logs ++ [chart_name i c]) s (f + 1)

/-- `render_batch_charts` (src/cli.rs lines 1083-1192), from the parsed spec
on: process each chart in order, count successes/failures, exit non-zero
iff any failed. -/
def render_batch_charts (dflt : Option String) (charts : List BatchChart)
    (proc : Nat → BatchChart → Bool) : Except String BatchResult :=
  render_batch_go dflt proc 0 charts [] [] 0 0

/-- Modelled from the spec (§4.5, §7): the indices of the charts whose
render succeeded (their output files are produced). -/
def batch_outputs (proc : Nat → BatchChart → Bool) (i : Nat) :
    List BatchChart → List Nat
  | [] => []
  | c :: rest =>
    if proc i c then i :: batch_outputs proc (i + 1) rest
    else batch_outputs proc (i + 1) rest

/-- Modelled from the spec (§7): the names of the failed charts, logged in
order. -/
def batch_failures (proc : Nat → BatchChart → Bool) (i : Nat) :
    List BatchChart → List String
  | [] => []
  | c :: rest =>
    if proc i c then batch_failures proc (i + 1) rest
    else chart_name i c :: batch_failures proc (i + 1) rest

/-- Modelled from the spec (§6): whether any chart failed. -/
def batch_any_failed (proc : Nat → BatchChart → Bool) (i : Nat) :
    List BatchChart → Bool
  | [] => false
  | c :: rest => !proc i c || batch_any_failed proc (i + 1) rest

theorem render_batch_go_spec (dflt : Option String) (proc : Nat → BatchChart → Bool) :
    ∀ (charts : List BatchChart) (i : Nat) (outs : List Nat) (logs : List String)
      (s f : Nat), (∀ c ∈ charts, (c.data <|> dflt).isSome) →
    render_batch_go dflt proc i charts outs logs s f
      = .ok ⟨outs ++ batch_outputs proc i charts, logs ++ batch_failures proc i charts,
          decide (0 < f) || batch_any_failed proc i charts⟩ := by
  intro charts
  induction charts with
  | nil =>
    intro i outs logs s f _
    simp [render_batch_go, batch_outputs, batch_failures, batch_any_failed]
  | cons c rest ih =>
    intro i outs logs s f h
    have hc : (c.data <|> dflt).isSome := h c (List.mem_cons_self c rest)
    obtain ⟨d, hd⟩ := Option.isSome_iff_exists.mp hc
    rw [render_batch_go, hd]
    dsimp only
    by_cases hp : proc i c
    · rw [if_pos hp, ih (i + 1) (outs ++ [i]) logs (s + 1) f
        (fun c hc => h c (List.mem_cons_of_mem _ hc))]
      simp [batch_outputs, batch_failures, batch_any_failed, hp]
    · rw [if_neg hp, ih (i + 1) outs (logs ++ [chart_name i c]) s (f + 1)
        (fun c hc => h c (List.mem_cons_of_mem _ hc))]
      simp [batch_outputs, batch_failures, batch_any_failed, hp,
        Bool.eq_false_iff.mpr hp, Nat.succ_pos]

theorem batch_any_failed_iff (proc : Nat → BatchChart → Bool) :
    ∀ (charts : List BatchChart) (i : Nat),
      batch_any_failed proc i charts = true
        ↔ ∃ j c, charts.get? j = some c ∧ proc (i + j) c = false := by
  intro charts
  induction charts with
  | nil => intro i; simp [batch_any_failed]
  | cons c rest ih =>
    intro i
    rw [batch_any_failed]
    simp only [Bool.or_eq_true, Bool.not_eq_eq_eq_not, Bool.not_true, ih (i + 1)]
    constructor
    · rintro (hp | ⟨j, c2, hj, hp⟩)
      · exact ⟨0, c, rfl, hp⟩
      · refine ⟨j + 1, c2, by simpa using hj, ?_⟩
        rwa [show i + (j + 1) = i + 1 + j by omega]
    · rintro ⟨j, c2, hj, hp⟩
      cases j with
      | zero =>
        left
        simp only [List.get?_cons_zero, Option.some.injEq] at hj
        rwa [← hj, Nat.add_zero] at hp
      | succ k =>
        right
        refine ⟨k, c2, by simpa using hj, ?_⟩
        rwa [show i + (k + 1) = i + 1 + k by omega] at hp

/-- C2 (amended): once every chart's data source resolves (its own, or the
spec default), the batch driver processes every chart: a failing chart is
caught, logged with its title (or `chart_N`), the remaining charts are still
processed and their outputs produced, and the process exits non-zero iff at
least one chart failed.  A chart with NO resolvable data source instead
aborts the whole batch at that chart with an error naming it (charts after
it are not attempted; the propagated error also exits non-zero). -/
theorem render_batch_charts_spec (dflt : Option String) (charts : List BatchChart)
    (proc : Nat → BatchChart → Bool)
    (h : ∀ c ∈ charts, (c.data <|> dflt).isSome) :
    render_batch_charts dflt charts proc
      = .ok ⟨batch_outputs proc 0 charts, batch_failures proc 0 charts,
          batch_any_failed proc 0 charts⟩
    ∧ (batch_any_failed proc 0 charts = true
        ↔ ∃ j c, charts.get? j = some c ∧ proc j c = false) := by
  constructor
  · rw [render_batch_charts, render_batch_go_spec dflt proc charts 0 [] [] 0 0 h]
    simp
  · rw [batch_any_failed_iff proc charts 0]
    simp

/-- Witness for C2: chart 1 (with its own source) succeeds, chart 2 (titled
Revenue, covered by the default source) fails: both are processed, the
failure is logged as Revenue, chart 1's output is still produced, and the
exit is non-zero. -/
theorem render_batch_charts_spec_witness :
    render_batch_charts (some "default.csv")
        [⟨none, some "a.csv"⟩, ⟨some "Revenue", none⟩] (fun i _ => i == 0)
      = .ok ⟨[0], ["Revenue"], true⟩ := by
  rw [(render_batch_charts_spec (some "default.csv")
    [⟨none, some "a.csv"⟩, ⟨some "Revenue", none⟩] (fun i _ => i == 0)
    (by intro c hc; fin_cases hc <;> rfl)).1]
  rfl

/-- C2 counterexample: a batch [chart with no data source, valid chart]
under a spec with no default aborts at chart 1 with an error instead of
catching it: the second (valid) chart is never processed and no summary is
produced, although that same second chart alone renders fine. -/
theorem render_batch_charts_aborts_on_missing_source :
    render_batch_charts none [⟨none, none⟩, ⟨some "t2", some "d2.csv"⟩]
        (fun _ _ => true)
      = .error "No data source specified for chart \x27chart_1\x27"
    ∧ render_batch_charts none [⟨some "t2", some "d2.csv"⟩] (fun _ _ => true)
      = .ok ⟨[0], [], false⟩ :=
  ⟨rfl, rfl⟩

end Graff
